import Mathlib

/-!
Verification of the `FileUploader` component
(src/components/FileUploader.tsx) of MichaelCasaDev/chakra-file-uploader.

The component turns a drag-and-drop payload or a native file-dialog
selection into a flat list of `fileType` records, filtering each file by
maximum size and media-type category, then hands the list to the
`onUploadEnd` callback.  This file gives a shallow embedding of that
pipeline and proves/refutes the frozen claims about it.
-/

/-- The `fileType` interface of FileUploader.tsx (the only record the
component delivers).  `type` is the string `"file"` or `"folder"`. -/
structure fileType where
  path : String
  type : String
  name : String
  mimeType : String
  data : String
deriving Repr, DecidableEq

/-- A platform file-system entry as seen by the drop path
(`webkitGetAsEntry` results and directory-reader children).

* `file`: carries the entry metadata (`fullPath`, `name` of the
  `FileSystemFileEntry`) and the `File` object data (`fileName`,
  `ftype`, `size`) plus the outcome of `FileReader.readAsDataURL`:
  `.ok d` = `onload` fires with `reader.result = d`, `.error e` =
  `onerror` fires (rejecting the per-file promise).
* `dir`: carries the entry metadata and the sequence of batches its
  `FileSystemDirectoryReader` delivers on successive `readEntries`
  calls (after the list is exhausted the reader keeps answering `[]`). -/
inductive FsEntry : Type where
  | file (fullPath entryName fileName ftype : String) (size : Nat)
         (read : Except String String) : FsEntry
  | dir (fullPath dirName : String) (batches : List (List FsEntry)) : FsEntry

mutual

/-- Weight of an entry, used as the termination measure of the
breadth-first traversal (a directory strictly outweighs all entries
reachable from it). -/
def FsEntry.weight : FsEntry → Nat
  | .file _ _ _ _ _ _ => 1
  | .dir _ _ bs => 1 + weightBatches bs

/-- Total weight of a batch list. -/
def weightBatches : List (List FsEntry) → Nat
  | [] => 0
  | b :: bs => weightBatch b + weightBatches bs

/-- Total weight of a list of entries. -/
def weightBatch : List FsEntry → Nat
  | [] => 0
  | e :: es => FsEntry.weight e + weightBatch es

end

/-- Weight of a traversal queue (`webkitGetAsEntry` may return `null`,
modelled as `none`). -/
def queueWeight : List (Option FsEntry) → Nat
  | [] => 0
  | none :: rest => 1 + queueWeight rest
  | some e :: rest => e.weight + queueWeight rest

/-- `readAllDirectoryEntries` (FileUploader.tsx lines 113-126): call
`readEntries` repeatedly, accumulating the children, until an empty
batch is returned.  The argument is the sequence of batches the
platform reader delivers; once it is exhausted the reader answers `[]`
(modelled by the `[]` case). -/
def readAllDirectoryEntries {α : Type} : List (List α) → List α
  | [] => []
  | b :: bs => if b.isEmpty then [] else b ++ readAllDirectoryEntries bs

/-- JavaScript `s.split("/")[0]`: the characters of `s` before the
first `/` (all of `s` when there is none, `""` for a leading `/`). -/
def splitHead (s : String) : String :=
  String.mk (s.data.takeWhile (fun c => c ≠ '/'))

/-- Remove the first occurrence of `pat` from `s` (no change when
`pat` does not occur; removing the empty pattern is the identity,
matching JavaScript replace-with-empty-string). -/
def removeFirst (pat : List Char) : List Char → List Char
  | [] => []
  | c :: cs =>
    if pat.isPrefixOf (c :: cs) then (c :: cs).drop pat.length
    else c :: removeFirst pat cs

/-- JavaScript `s.replace(pat, "")` for a plain string pattern: remove
the first occurrence of `pat` (this is how FileUploader.tsx computes
`path` from `entry.fullPath` and `entry.name`, lines 79-82 and 98). -/
def replaceFirst (s pat : String) : String :=
  String.mk (removeFirst pat.data s.data)

/-- The acceptance check of FileUploader.tsx (lines 72-77 on the drop
path, lines 275-281 on the dialog path, identical text): the size
check `maxSize == -1 || file.size < maxSize` and the media-type check
`file.type.split("/")[0] == fileType || (file.type ==
"application/pdf" && fileType == "pdf") || fileType == "other"`. -/
def checksPass (maxSize : Int) (fileTypeProp : String) (size : Nat)
    (ftype : String) : Bool :=
  (maxSize == -1 || decide ((size : Int) < maxSize)) &&
  (splitHead ftype == fileTypeProp ||
    (ftype == "application/pdf" && fileTypeProp == "pdf") ||
    fileTypeProp == "other")

/-- `getAllFileEntries` (FileUploader.tsx lines 43-111): breadth-first
traversal of the dropped items over a single FIFO queue.  The queue is
seeded with the `webkitGetAsEntry` of every dropped item (`none` for a
`null` result, skipped by the `entry &&` guards).  A dequeued file is
read; `onerror` rejects the awaited promise and, since nothing catches
it, the whole traversal rejects (`.error`).  On `onload` the record is
appended exactly when `checksPass` holds, and the loop continues either
way.  A dequeued directory appends one folder record unconditionally
and pushes all its children (via `readAllDirectoryEntries`) at the
queue tail. -/
def getAllFileEntries (maxSize : Int) (fileTypeProp : String) :
    List (Option FsEntry) → Except String (List fileType)
  | [] => .ok []
  | none :: rest => getAllFileEntries maxSize fileTypeProp rest
  | some (.file fullPath entryName fileName ftype size readRes) :: rest =>
    match readRes with
    | .error e => .error e
    | .ok d =>
      match getAllFileEntries maxSize fileTypeProp rest with
      | .error e => .error e
      | .ok out =>
        if checksPass maxSize fileTypeProp size ftype then
          .ok ({ path := replaceFirst fullPath entryName
               , type := "file"
               , name := fileName
               , mimeType := if ftype == "" then "application/octet-stream"
                             else ftype
               , data := d } :: out)
        else .ok out
  | some (.dir fullPath dirName batches) :: rest =>
    match getAllFileEntries maxSize fileTypeProp
        (rest ++ (readAllDirectoryEntries batches).map some) with
    | .error e => .error e
    | .ok out =>
      .ok ({ path := replaceFirst fullPath dirName
           , type := "folder"
           , name := dirName
           , mimeType := "folder/folder"
           , data := "" } :: out)
termination_by queue => queueWeight queue
decreasing_by
  · simp [queueWeight]
  · simp [queueWeight, FsEntry.weight]
  · have happ : ∀ (a b : List (Option FsEntry)),
        queueWeight (a ++ b) = queueWeight a + queueWeight b := by
      intro a b
      induction a with
      | nil => simp [queueWeight]
      | cons x xs ih => cases x <;> simp [queueWeight, ih] <;> omega
    have hmap : ∀ (l : List FsEntry),
        queueWeight (l.map some) = weightBatch l := by
      intro l
      induction l with
      | nil => simp [queueWeight, weightBatch]
      | cons e es ih => simp [queueWeight, weightBatch, ih]
    have hbapp : ∀ (u v : List FsEntry),
        weightBatch (u ++ v) = weightBatch u + weightBatch v := by
      intro u v
      induction u with
      | nil => simp [weightBatch]
      | cons e es ih => simp [weightBatch, ih]; omega
    have hread : ∀ (bs : List (List FsEntry)),
        weightBatch (readAllDirectoryEntries bs) ≤ weightBatches bs := by
      intro bs
      induction bs with
      | nil => simp [readAllDirectoryEntries, weightBatch]
      | cons b bs ih =>
        by_cases hb : b.isEmpty
        all_goals
          simp [readAllDirectoryEntries, hb, weightBatch, weightBatches, hbapp]
        all_goals omega
    simp [queueWeight, FsEntry.weight, happ, hmap]
    have := hread batches
    omega

/-- The `onDrop` handler (FileUploader.tsx lines 189-206) as seen
through its callbacks: `none` = nothing was dropped, neither callback
runs; `some r` = `onUploadStart` ran and the traversal produced `r`
(`onUploadEnd` runs exactly when `r` is `.ok`; a rejected traversal is
an unhandled rejection inside the async handler, so `onUploadEnd`
never runs). -/
def onDrop (maxSize : Int) (fileTypeProp : String)
    (queue : List (Option FsEntry)) :
    Option (Except String (List fileType)) :=
  if queue.length > 0 then some (getAllFileEntries maxSize fileTypeProp queue)
  else none

deriving instance DecidableEq for Except

/-- A file delivered by the native dialog (`File` object): `name`,
`type` (MIME), `size`, and the `FileReader.readAsDataURL` outcome. -/
structure SelFile where
  name : String
  type : String
  size : Nat
  read : Except String String
deriving Repr, DecidableEq

/-- Outcome of the per-file loop of the `onChange` handler. -/
inductive SelResult : Type where
  | done (items : List fileType)
  | failed (e : String)
  | hang
deriving Repr, DecidableEq

/-- The `for` loop of the `onChange` handler (FileUploader.tsx lines
263-296): for each index, `files.item(i)` is read; when it is `null`
(`none`) the promise body does nothing, so the awaited promise never
settles and the loop never advances (`.hang`).  A read error rejects
the awaited promise, which nothing catches (`.failed`).  Otherwise the
record is appended exactly when `checksPass` holds. -/
def selLoop (maxSize : Int) (fileTypeProp : String) :
    List (Option SelFile) → SelResult
  | [] => .done []
  | none :: _ => .hang
  | some f :: rest =>
    match f.read with
    | .error e => .failed e
    | .ok d =>
      match selLoop maxSize fileTypeProp rest with
      | .done items =>
        if checksPass maxSize fileTypeProp f.size f.type then
          .done ({ path := "/"
                 , type := "file"
                 , name := f.name
                 , mimeType := if f.type == "" then "application/octet-stream"
                               else f.type
                 , data := d } :: items)
        else .done items
      | r => r

/-- Observable outcome of the `onChange` handler. -/
inductive ChangeOutcome : Type where
  | noFiles
  | hang
  | failed (e : String)
  | delivered (items : List fileType)
deriving Repr, DecidableEq

/-- The `onChange` handler (FileUploader.tsx lines 252-301): when
`e.target.files` is `null` or empty neither callback runs
(`.noFiles`); otherwise `onUploadStart` runs, the files are processed
serially by `selLoop`, and `onUploadEnd items` runs exactly on
`.delivered items`. -/
def onChange (maxSize : Int) (fileTypeProp : String)
    (files : Option (List (Option SelFile))) : ChangeOutcome :=
  match files with
  | none => .noFiles
  | some fs =>
    if fs.length > 0 then
      match selLoop maxSize fileTypeProp fs with
      | .done items => .delivered items
      | .failed e => .failed e
      | .hang => .hang
    else .noFiles

/-- JavaScript `x.toFixed(1)` for the nonnegative exact quotient
`num / den` (`den` a positive power of ten as used in
`formatFileSize`): round half up to one decimal and print it. -/
def fixed1 (num den : Nat) : String :=
  let s := (num * 10 + den / 2) / den
  toString (s / 10) ++ "." ++ toString (s % 10)

/-- `formatFileSize` (FileUploader.tsx lines 142-160), on an integer
byte count.  Note the divisors of the source: the TB branch divides by
100000000000 (10^11) and the GB branch by 100000000 (10^8); the final
`else` yields the fallback string `"0 GB"`. -/
def formatFileSize (bytes : Int) : String :=
  if bytes ≥ 1000000000000 then fixed1 bytes.toNat 100000000000 ++ " TB"
  else if bytes ≥ 1000000000 then fixed1 bytes.toNat 100000000 ++ " GB"
  else if bytes ≥ 1000000 then fixed1 bytes.toNat 1000000 ++ " MB"
  else if bytes ≥ 1000 then fixed1 bytes.toNat 1000 ++ " KB"
  else if bytes > 1 then toString bytes ++ " bytes"
  else if bytes = 1 then "1 byte"
  else "0 GB"

/-- A queue element that is not a file whose read fails (used to
describe the queue prefix processed before a failing read). -/
def readNotFailing : Option FsEntry → Bool
  | some (.file _ _ _ _ _ (.error _)) => false
  | _ => true

/-- A selection element that is a present file with a succeeding read
(used to describe the prefix processed before a `null` item). -/
def selReadOk : Option SelFile → Bool
  | some ⟨_, _, _, .ok _⟩ => true
  | _ => false

/-- Modelled from the spec: the `path` contract stated in the spec
("directory path containing the entry, trailing entry name stripped"),
i.e. the full path with its trailing `name`-sized segment removed.
Used only to compare the spec's wording with the source's
`replaceFirst`-based computation. -/
def stripTrailingName (fullPath name : String) : String :=
  String.mk (fullPath.data.take (fullPath.data.length - name.data.length))

/-! ## Helper lemmas -/

/-- One step of `selLoop` on a successfully read file: the record is
appended exactly when the checks pass. -/
theorem selLoop_cons_ok (ms : Int) (ftp : String) (f : SelFile) (d : String)
    (rest : List (Option SelFile)) (items : List fileType)
    (hread : f.read = .ok d) (hrest : selLoop ms ftp rest = .done items) :
    selLoop ms ftp (some f :: rest) =
      .done (if checksPass ms ftp f.size f.type then
              { path := "/"
              , type := "file"
              , name := f.name
              , mimeType := if f.type == "" then "application/octet-stream"
                            else f.type
              , data := d } :: items
             else items) := by
  by_cases hc : checksPass ms ftp f.size f.type <;>
    simp [selLoop, hread, hrest, hc]

/-- Every record `selLoop` delivers is a `"file"` record with the root
path `"/"`. -/
theorem selLoop_done_root_files (ms : Int) (ftp : String) :
    ∀ (fs : List (Option SelFile)) (items : List fileType),
      selLoop ms ftp fs = .done items →
      ∀ it ∈ items, it.type = "file" ∧ it.path = "/" := by
  intro fs
  induction fs with
  | nil =>
    intro items h it hit
    simp only [selLoop, SelResult.done.injEq] at h
    subst h
    simp at hit
  | cons x rest ih =>
    intro items h it hit
    match x with
    | none => simp [selLoop] at h
    | some f =>
      match hread : f.read with
      | .error e => simp [selLoop, hread] at h
      | .ok d =>
        match hrest : selLoop ms ftp rest with
        | .failed e => simp [selLoop, hread, hrest] at h
        | .hang => simp [selLoop, hread, hrest] at h
        | .done its =>
          rw [selLoop_cons_ok ms ftp f d rest its hread hrest] at h
          by_cases hc : checksPass ms ftp f.size f.type
          · rw [if_pos hc] at h
            injection h with h
            subst h
            rcases List.mem_cons.mp hit with h1 | h2
            · simp [h1]
            · exact ih its hrest it h2
          · rw [if_neg hc] at h
            injection h with h
            subst h
            exact ih its hrest it hit

/-- Removing the first occurrence of `pat` from `pre ++ pat` yields
`pre` when `pat` does not occur starting at any position before
`pre.length` (i.e. the trailing occurrence is the first one). -/
theorem removeFirst_of_trailing (pat : List Char) :
    ∀ pre : List Char,
      (∀ i < pre.length, pat.isPrefixOf ((pre ++ pat).drop i) = false) →
      removeFirst pat (pre ++ pat) = pre := by
  intro pre
  induction pre with
  | nil =>
    intro _
    match pat with
    | [] => simp [removeFirst]
    | c :: cs =>
      simp only [List.nil_append, removeFirst]
      rw [if_pos (by simp [List.isPrefixOf_iff_prefix])]
      simp
  | cons c pre ih =>
    intro h
    have h0 : pat.isPrefixOf (c :: (pre ++ pat)) = false := by
      have h1 := h 0 (by simp)
      rwa [List.drop_zero, List.cons_append] at h1
    have hrec : removeFirst pat (pre ++ pat) = pre :=
      ih (fun i hi => by
        have h2 := h (i + 1) (by simpa using hi)
        rwa [List.cons_append, List.drop_succ_cons] at h2)
    rw [List.cons_append]
    simp only [removeFirst, h0, Bool.false_eq_true, if_false]
    rw [hrec]

/-! ## Claims -/

/-- Claim C1: on both the drag-and-drop path and the native-dialog
path, a file whose read completes produces an appended `"file"` record
exactly when (`maxSize == -1` or its size is strictly below `maxSize`)
and (the top-level segment of its media type equals the configured
category, or it is `application/pdf` under the `"pdf"` category, or
the category is `"other"`); a file failing the predicate produces no
record and no error. -/
theorem c1_filter_append_iff_on_both_paths
    (ms : Int) (ftp p en fn m d : String) (sz : Nat)
    (rest : List (Option FsEntry)) (out : List fileType)
    (selRest : List (Option SelFile)) (selOut : List fileType)
    (hrest : getAllFileEntries ms ftp rest = .ok out)
    (hsel : selLoop ms ftp selRest = .done selOut) :
    getAllFileEntries ms ftp (some (.file p en fn m sz (.ok d)) :: rest) =
      .ok (if checksPass ms ftp sz m then
            { path := replaceFirst p en
            , type := "file"
            , name := fn
            , mimeType := if m == "" then "application/octet-stream" else m
            , data := d } :: out
           else out)
    ∧ selLoop ms ftp (some ⟨fn, m, sz, .ok d⟩ :: selRest) =
      .done (if checksPass ms ftp sz m then
              { path := "/"
              , type := "file"
              , name := fn
              , mimeType := if m == "" then "application/octet-stream" else m
              , data := d } :: selOut
             else selOut) := by
  constructor
  · by_cases hc : checksPass ms ftp sz m <;>
      simp [getAllFileEntries, hrest, hc]
  · exact selLoop_cons_ok ms ftp ⟨fn, m, sz, .ok d⟩ d selRest selOut rfl hsel

/-- Witness for C1 at a concrete accepted file and a concrete rejected
file (rejected by the `"image"` category). -/
theorem c1_filter_append_iff_on_both_paths_witness :
    getAllFileEntries (-1) "other" [] = .ok [] ∧
    selLoop (-1) "other" [] = .done [] ∧
    getAllFileEntries 100 "image" [] = .ok [] ∧
    selLoop 100 "image" [] = .done [] ∧
    (getAllFileEntries (-1) "other"
        [some (.file "/a" "a" "a" "text/plain" 5 (.ok "d"))] =
      .ok (if checksPass (-1) "other" 5 "text/plain" then
            [{ path := replaceFirst "/a" "a"
             , type := "file"
             , name := "a"
             , mimeType := if "text/plain" == "" then "application/octet-stream"
                           else "text/plain"
             , data := "d" }]
           else [])) ∧
    (selLoop 100 "image" [some ⟨"a", "text/plain", 5, .ok "d"⟩] =
      .done (if checksPass 100 "image" 5 "text/plain" then
              [{ path := "/"
               , type := "file"
               , name := "a"
               , mimeType := if "text/plain" == "" then "application/octet-stream"
                             else "text/plain"
               , data := "d" }]
             else [])) :=
  ⟨by simp [getAllFileEntries], by simp [selLoop],
   by simp [getAllFileEntries], by simp [selLoop],
   (c1_filter_append_iff_on_both_paths (-1) "other" "/a" "a" "a" "text/plain"
      "d" 5 [] [] [] [] (by simp [getAllFileEntries]) (by simp [selLoop])).1,
   (c1_filter_append_iff_on_both_paths 100 "image" "/a" "a" "a" "text/plain"
      "d" 5 [] [] [] [] (by simp [getAllFileEntries]) (by simp [selLoop])).2⟩

/-- Claim C2: a dequeued directory always appends exactly one
`"folder"` record, whatever `maxSize` and the category are, and the
record precedes every record produced afterwards (in particular every
record of its children, which are only enqueued at the tail). -/
theorem c2_folder_entry_always_emitted
    (ms : Int) (ftp p n : String) (batches : List (List FsEntry))
    (rest : List (Option FsEntry)) (out : List fileType)
    (h : getAllFileEntries ms ftp
          (rest ++ (readAllDirectoryEntries batches).map some) = .ok out) :
    getAllFileEntries ms ftp (some (.dir p n batches) :: rest) =
      .ok ({ path := replaceFirst p n
           , type := "folder"
           , name := n
           , mimeType := "folder/folder"
           , data := "" } :: out) := by
  simp [getAllFileEntries, h]

/-- Witness for C2 at a concrete directory with one oversized child
(the folder record is emitted although the child is filtered out). -/
theorem c2_folder_entry_always_emitted_witness :
    getAllFileEntries 10 "image"
        ([] ++ (readAllDirectoryEntries
          [[ FsEntry.file "/Y/Z" "Z" "Z" "image/png" 50 (.ok "dZ") ]]).map some) =
      .ok [] ∧
    getAllFileEntries 10 "image"
        [some (.dir "/Y" "Y"
          [[ FsEntry.file "/Y/Z" "Z" "Z" "image/png" 50 (.ok "dZ") ]])] =
      .ok [{ path := replaceFirst "/Y" "Y"
           , type := "folder"
           , name := "Y"
           , mimeType := "folder/folder"
           , data := "" }] :=
  ⟨by simp [getAllFileEntries, readAllDirectoryEntries, checksPass],
   c2_folder_entry_always_emitted 10 "image" "/Y" "Y"
     [[ FsEntry.file "/Y/Z" "Z" "Z" "image/png" 50 (.ok "dZ") ]] [] []
     (by simp [getAllFileEntries, readAllDirectoryEntries, checksPass])⟩

/-- Claim C3: the drop traversal is breadth-first over one FIFO queue:
an expanded directory's children go to the queue tail (second
conjunct), and in the concrete drop `[folder A {file A1}, file B]` the
folder-A record and the file-B record both precede the file-A1 record
(first conjunct). -/
theorem c3_drop_traversal_breadth_first :
    getAllFileEntries (-1) "other"
        [some (.dir "/A" "A"
            [[ FsEntry.file "/A/A1" "A1" "A1" "text/plain" 3 (.ok "dA1") ]]),
         some (.file "/B" "B" "B" "text/plain" 3 (.ok "dB"))] =
      .ok [{ path := "/", type := "folder", name := "A"
           , mimeType := "folder/folder", data := "" },
           { path := "/", type := "file", name := "B"
           , mimeType := "text/plain", data := "dB" },
           { path := "/A/", type := "file", name := "A1"
           , mimeType := "text/plain", data := "dA1" }]
    ∧ ∀ (ms : Int) (ftp p n : String) (batches : List (List FsEntry))
        (rest : List (Option FsEntry)),
        getAllFileEntries ms ftp (some (.dir p n batches) :: rest) =
          match getAllFileEntries ms ftp
              (rest ++ (readAllDirectoryEntries batches).map some) with
          | .error e => .error e
          | .ok out =>
            .ok ({ path := replaceFirst p n
                 , type := "folder"
                 , name := n
                 , mimeType := "folder/folder"
                 , data := "" } :: out) := by
  constructor
  · simp [getAllFileEntries, readAllDirectoryEntries, checksPass, splitHead,
          replaceFirst, removeFirst]
  · intro ms ftp p n batches rest
    simp [getAllFileEntries]

/-- Claim C4: draining a directory reader whose non-empty batches are
terminated by an empty batch returns the concatenation of the batches
in order (every child exactly once). -/
theorem c4_readAllDirectoryEntries_joins_batches {α : Type}
    (batches : List (List α)) (h : ∀ b ∈ batches, b ≠ []) :
    readAllDirectoryEntries (batches ++ [[]]) = batches.flatten := by
  induction batches with
  | nil => simp [readAllDirectoryEntries]
  | cons b bs ih =>
    have hb : b.isEmpty = false := by
      have h1 := h b (by simp)
      simpa [List.isEmpty_iff] using h1
    have ih2 := ih (fun x hx => h x (by simp [hx]))
    simp [readAllDirectoryEntries, hb, ih2]

/-- Witness for C4 at two concrete non-empty batches. -/
theorem c4_readAllDirectoryEntries_joins_batches_witness :
    (∀ b ∈ ([[1], [2, 3]] : List (List Nat)), b ≠ []) ∧
    readAllDirectoryEntries (([[1], [2, 3]] : List (List Nat)) ++ [[]]) =
      ([[1], [2, 3]] : List (List Nat)).flatten :=
  ⟨by decide,
   c4_readAllDirectoryEntries_joins_batches [[1], [2, 3]] (by decide)⟩

/-- Counterexample to claim C5: the source computes `path` as
`entry.fullPath.replace(entry.name, "")`, which removes the FIRST
occurrence of the name, not the trailing segment.  For a file named
`"a"` inside a folder named `"a"` (full path `"/a/a"`), the produced
path is `"//a"`, while the trailing-segment-stripped path of the claim
is `"/a/"`. -/
theorem c5_path_strip_counterexample :
    getAllFileEntries (-1) "other"
        [some (.dir "/a" "a"
          [[ FsEntry.file "/a/a" "a" "a" "text/plain" 1 (.ok "d") ]])] =
      .ok [{ path := "/", type := "folder", name := "a"
           , mimeType := "folder/folder", data := "" },
           { path := "//a", type := "file", name := "a"
           , mimeType := "text/plain", data := "d" }]
    ∧ stripTrailingName "/a/a" "a" = "/a/"
    ∧ ("//a" : String) ≠ "/a/" := by
  refine ⟨?_, by decide, by decide⟩
  simp [getAllFileEntries, readAllDirectoryEntries, checksPass, splitHead,
        replaceFirst, removeFirst]

/-- Claim C5 as amended: for every file or folder entry produced on
the drop path, `path` equals the entry's full path with the FIRST
occurrence of the entry's name removed; when the first occurrence of
the name in the full path is the trailing one (in particular whenever
the name's text does not occur earlier in the path), this equals the
directory path containing the entry. -/
theorem c5_path_strips_first_occurrence :
    (∀ (ms : Int) (ftp p n : String) (batches : List (List FsEntry))
       (rest : List (Option FsEntry)) (out : List fileType)
       (pre : List Char),
       getAllFileEntries ms ftp
           (rest ++ (readAllDirectoryEntries batches).map some) = .ok out →
       p.data = pre ++ n.data →
       (∀ i < pre.length, n.data.isPrefixOf (p.data.drop i) = false) →
       getAllFileEntries ms ftp (some (.dir p n batches) :: rest) =
         .ok ({ path := String.mk pre, type := "folder", name := n
              , mimeType := "folder/folder", data := "" } :: out))
    ∧ (∀ (ms : Int) (ftp p en fn m d : String) (sz : Nat)
         (rest : List (Option FsEntry)) (out : List fileType)
         (pre : List Char),
         getAllFileEntries ms ftp rest = .ok out →
         p.data = pre ++ en.data →
         (∀ i < pre.length, en.data.isPrefixOf (p.data.drop i) = false) →
         getAllFileEntries ms ftp
             (some (.file p en fn m sz (.ok d)) :: rest) =
           .ok (if checksPass ms ftp sz m then
                 { path := String.mk pre
                 , type := "file"
                 , name := fn
                 , mimeType := if m == "" then "application/octet-stream"
                               else m
                 , data := d } :: out
                else out)) := by
  constructor
  · intro ms ftp p n batches rest out pre h hsplit hfirst
    have hpath : replaceFirst p n = String.mk pre := by
      unfold replaceFirst
      rw [hsplit]
      rw [removeFirst_of_trailing n.data pre
        (fun i hi => by rw [← hsplit]; exact hfirst i hi)]
    rw [← hpath]
    simp [getAllFileEntries, h]
  · intro ms ftp p en fn m d sz rest out pre h hsplit hfirst
    have hpath : replaceFirst p en = String.mk pre := by
      unfold replaceFirst
      rw [hsplit]
      rw [removeFirst_of_trailing en.data pre
        (fun i hi => by rw [← hsplit]; exact hfirst i hi)]
    rw [← hpath]
    by_cases hc : checksPass ms ftp sz m <;>
      simp [getAllFileEntries, h, hc]

/-- Witness for the amended C5 at a folder `"/A"` named `"A"` and a
file `"/A/B"` named `"B"` (first occurrences are the trailing ones). -/
theorem c5_path_strips_first_occurrence_witness :
    getAllFileEntries (-1) "other"
        ([] ++ (readAllDirectoryEntries
          ([] : List (List FsEntry))).map some) = .ok [] ∧
    ("/A" : String).data = ['/'] ++ ("A" : String).data ∧
    (∀ i < (['/'] : List Char).length,
      ("A" : String).data.isPrefixOf (("/A" : String).data.drop i) = false) ∧
    getAllFileEntries (-1) "other" [] = .ok [] ∧
    ("/A/B" : String).data = ['/', 'A', '/'] ++ ("B" : String).data ∧
    (∀ i < (['/', 'A', '/'] : List Char).length,
      ("B" : String).data.isPrefixOf (("/A/B" : String).data.drop i) = false) ∧
    getAllFileEntries (-1) "other" [some (.dir "/A" "A" [])] =
      .ok [{ path := String.mk ['/'], type := "folder", name := "A"
           , mimeType := "folder/folder", data := "" }] ∧
    getAllFileEntries (-1) "other"
        [some (.file "/A/B" "B" "B" "text/plain" 1 (.ok "d"))] =
      .ok (if checksPass (-1) "other" 1 "text/plain" then
            [{ path := String.mk ['/', 'A', '/']
             , type := "file"
             , name := "B"
             , mimeType := if "text/plain" == "" then "application/octet-stream"
                           else "text/plain"
             , data := "d" }]
           else []) :=
  ⟨by simp [getAllFileEntries, readAllDirectoryEntries], by decide, by decide,
   by simp [getAllFileEntries], by decide, by decide,
   c5_path_strips_first_occurrence.1 (-1) "other" "/A" "A" [] [] [] ['/']
     (by simp [getAllFileEntries, readAllDirectoryEntries]) (by decide)
     (by decide),
   c5_path_strips_first_occurrence.2 (-1) "other" "/A/B" "B" "B" "text/plain"
     "d" 1 [] [] ['/', 'A', '/'] (by simp [getAllFileEntries]) (by decide)
     (by decide)⟩

/-- Claim C6: a failing platform read of any single file during drop
traversal is not caught: the traversal rejects with that read's error,
the result does not depend on the entries still queued after the
failing file (they are never processed), and the drop handler ends in
the rejected state in which `onUploadEnd` is never invoked. -/
theorem c6_read_failure_aborts_traversal
    (ms : Int) (ftp p en fn m err : String) (sz : Nat)
    (qpre qsuf : List (Option FsEntry))
    (h : ∀ x ∈ qpre, readNotFailing x = true) :
    getAllFileEntries ms ftp
        (qpre ++ some (.file p en fn m sz (.error err)) :: qsuf) = .error err
    ∧ onDrop ms ftp (qpre ++ some (.file p en fn m sz (.error err)) :: qsuf) =
        some (.error err) := by
  have main : ∀ (qpre : List (Option FsEntry)),
      (∀ x ∈ qpre, readNotFailing x = true) →
      ∀ (qsuf : List (Option FsEntry)),
      getAllFileEntries ms ftp
        (qpre ++ some (.file p en fn m sz (.error err)) :: qsuf) =
        .error err := by
    intro qpre
    induction qpre with
    | nil =>
      intro _ qsuf
      simp [getAllFileEntries]
    | cons x xs ih =>
      intro hx qsuf
      have hxs : ∀ y ∈ xs, readNotFailing y = true :=
        fun y hy => hx y (by simp [hy])
      match x with
      | none =>
        rw [List.cons_append]
        simp only [getAllFileEntries]
        exact ih hxs qsuf
      | some (.file p2 en2 fn2 m2 sz2 (.ok d2)) =>
        rw [List.cons_append]
        simp [getAllFileEntries, ih hxs qsuf]
      | some (.file p2 en2 fn2 m2 sz2 (.error e2)) =>
        have hcontra :=
          hx (some (FsEntry.file p2 en2 fn2 m2 sz2 (.error e2))) (by simp)
        simp [readNotFailing] at hcontra
      | some (.dir p2 n2 bs2) =>
        rw [List.cons_append]
        simp only [getAllFileEntries]
        rw [List.append_assoc, List.cons_append]
        rw [ih hxs (qsuf ++ (readAllDirectoryEntries bs2).map some)]
  have h1 := main qpre h qsuf
  refine ⟨h1, ?_⟩
  rw [onDrop, if_pos (by simp), h1]

/-- Witness for C6: one succeeding file before the failing one, one
file queued after it (whose would-be record never appears). -/
theorem c6_read_failure_aborts_traversal_witness :
    (∀ x ∈ [some (FsEntry.file "/a" "a" "a" "text/plain" 1 (.ok "da"))],
      readNotFailing x = true) ∧
    getAllFileEntries (-1) "other"
        ([some (FsEntry.file "/a" "a" "a" "text/plain" 1 (.ok "da"))] ++
          some (.file "/b" "b" "b" "text/plain" 1 (.error "boom")) ::
          [some (FsEntry.file "/c" "c" "c" "text/plain" 1 (.ok "dc"))]) =
      .error "boom" ∧
    onDrop (-1) "other"
        ([some (FsEntry.file "/a" "a" "a" "text/plain" 1 (.ok "da"))] ++
          some (.file "/b" "b" "b" "text/plain" 1 (.error "boom")) ::
          [some (FsEntry.file "/c" "c" "c" "text/plain" 1 (.ok "dc"))]) =
      some (.error "boom") :=
  ⟨by decide,
   (c6_read_failure_aborts_traversal (-1) "other" "/b" "b" "b" "text/plain"
      "boom" 1 _ _ (by decide)).1,
   (c6_read_failure_aborts_traversal (-1) "other" "/b" "b" "b" "text/plain"
      "boom" 1 _ _ (by decide)).2⟩

/-- Claim C7: on the native-dialog path every delivered record is a
`"file"` record with path `"/"` (first conjunct), and selecting two
PDFs and one text file under the `"pdf"` category delivers exactly the
two PDF records, both with path `"/"` (second conjunct, at the default
`maxSize` of 10000000). -/
theorem c7_dialog_entries_are_root_files :
    (∀ (ms : Int) (ftp : String) (files : Option (List (Option SelFile)))
       (items : List fileType),
       onChange ms ftp files = .delivered items →
       ∀ it ∈ items, it.type = "file" ∧ it.path = "/")
    ∧ onChange 10000000 "pdf"
        (some [some ⟨"p1.pdf", "application/pdf", 100, .ok "d1"⟩,
               some ⟨"p2.pdf", "application/pdf", 200, .ok "d2"⟩,
               some ⟨"t.txt", "text/plain", 50, .ok "d3"⟩]) =
      .delivered
        [{ path := "/", type := "file", name := "p1.pdf"
         , mimeType := "application/pdf", data := "d1" },
         { path := "/", type := "file", name := "p2.pdf"
         , mimeType := "application/pdf", data := "d2" }] := by
  constructor
  · intro ms ftp files items h
    match files with
    | none => simp [onChange] at h
    | some fs =>
      by_cases hlen : fs.length > 0
      · rw [onChange, if_pos hlen] at h
        match hsel : selLoop ms ftp fs with
        | .done its =>
          rw [hsel] at h
          injection h with h
          subst h
          exact selLoop_done_root_files ms ftp fs its hsel
        | .failed e => rw [hsel] at h; cases h
        | .hang => rw [hsel] at h; cases h
      · rw [onChange, if_neg hlen] at h
        cases h
  · decide

/-- Witness for C7's first conjunct at a concrete delivered
selection. -/
theorem c7_dialog_entries_are_root_files_witness :
    onChange 10000000 "pdf"
        (some [some ⟨"p1.pdf", "application/pdf", 100, .ok "d1"⟩]) =
      .delivered
        [{ path := "/", type := "file", name := "p1.pdf"
         , mimeType := "application/pdf", data := "d1" }] ∧
    (∀ it ∈ [({ path := "/", type := "file", name := "p1.pdf"
              , mimeType := "application/pdf", data := "d1" } : fileType)],
      it.type = "file" ∧ it.path = "/") :=
  ⟨by decide,
   c7_dialog_entries_are_root_files.1 10000000 "pdf"
     (some [some ⟨"p1.pdf", "application/pdf", 100, .ok "d1"⟩]) _ (by decide)⟩

/-- Counterexample to claim C8: the GB branch of `formatFileSize`
divides by 100000000 (10^8), not 10^9, so 10^9 bytes renders as
`"10.0 GB"` and not as the gigabyte value `"1.0 GB"` the claim
describes (the claim flags only the TB divisor as inconsistent). -/
theorem c8_formatFileSize_gb_counterexample :
    formatFileSize 1000000000 = "10.0 GB"
    ∧ fixed1 1000000000 1000000000 ++ " GB" = "1.0 GB"
    ∧ formatFileSize 1000000000 ≠ fixed1 1000000000 1000000000 ++ " GB" := by
  refine ⟨by decide, by decide, by decide⟩

/-- Claim C8 as amended: `formatFileSize` renders `b ≥ 10^12` by
dividing by 10^11 (the source's inconsistent TB divisor) with one
decimal place; `10^9 ≤ b < 10^12` by dividing by 10^8 (a second
inconsistent divisor) with one decimal place; `10^6 ≤ b < 10^9` in
megabytes and `10^3 ≤ b < 10^6` in kilobytes, each with one decimal
place; 2500000 maps to `"2.5 MB"`, 500 to `"500 bytes"`, 1 to
`"1 byte"`, and 0 or any negative count to the fallback `"0 GB"`. -/
theorem c8_formatFileSize_branches :
    (∀ b : Int, 1000000000000 ≤ b →
      formatFileSize b = fixed1 b.toNat 100000000000 ++ " TB")
    ∧ (∀ b : Int, 1000000000 ≤ b → b < 1000000000000 →
      formatFileSize b = fixed1 b.toNat 100000000 ++ " GB")
    ∧ (∀ b : Int, 1000000 ≤ b → b < 1000000000 →
      formatFileSize b = fixed1 b.toNat 1000000 ++ " MB")
    ∧ (∀ b : Int, 1000 ≤ b → b < 1000000 →
      formatFileSize b = fixed1 b.toNat 1000 ++ " KB")
    ∧ formatFileSize 2500000 = "2.5 MB"
    ∧ formatFileSize 500 = "500 bytes"
    ∧ formatFileSize 1 = "1 byte"
    ∧ formatFileSize 0 = "0 GB"
    ∧ (∀ b : Int, b < 0 → formatFileSize b = "0 GB") := by
  refine ⟨?_, ?_, ?_, ?_, by decide, by decide, by decide, by decide, ?_⟩
  · intro b h1
    rw [formatFileSize, if_pos (by omega)]
  · intro b h1 h2
    rw [formatFileSize, if_neg (by omega), if_pos (by omega)]
  · intro b h1 h2
    rw [formatFileSize, if_neg (by omega), if_neg (by omega),
      if_pos (by omega)]
  · intro b h1 h2
    rw [formatFileSize, if_neg (by omega), if_neg (by omega),
      if_neg (by omega), if_pos (by omega)]
  · intro b h1
    rw [formatFileSize, if_neg (by omega), if_neg (by omega),
      if_neg (by omega), if_neg (by omega), if_neg (by omega),
      if_neg (by omega)]

/-- Witness for the amended C8 at one concrete input per guarded
branch. -/
theorem c8_formatFileSize_branches_witness :
    ((1000000000000 : Int) ≤ 2000000000000 ∧
      formatFileSize 2000000000000 =
        fixed1 (2000000000000 : Int).toNat 100000000000 ++ " TB") ∧
    ((1000000000 : Int) ≤ 2000000000 ∧ (2000000000 : Int) < 1000000000000 ∧
      formatFileSize 2000000000 =
        fixed1 (2000000000 : Int).toNat 100000000 ++ " GB") ∧
    ((1000000 : Int) ≤ 2500000 ∧ (2500000 : Int) < 1000000000 ∧
      formatFileSize 2500000 = fixed1 (2500000 : Int).toNat 1000000 ++ " MB") ∧
    ((1000 : Int) ≤ 1500 ∧ (1500 : Int) < 1000000 ∧
      formatFileSize 1500 = fixed1 (1500 : Int).toNat 1000 ++ " KB") ∧
    ((-7 : Int) < 0 ∧ formatFileSize (-7) = "0 GB") :=
  ⟨⟨by decide, c8_formatFileSize_branches.1 2000000000000 (by decide)⟩,
   ⟨by decide, by decide,
    c8_formatFileSize_branches.2.1 2000000000 (by decide) (by decide)⟩,
   ⟨by decide, by decide,
    c8_formatFileSize_branches.2.2.1 2500000 (by decide) (by decide)⟩,
   ⟨by decide, by decide,
    c8_formatFileSize_branches.2.2.2.1 1500 (by decide) (by decide)⟩,
   ⟨by decide, c8_formatFileSize_branches.2.2.2.2.2.2.2.2 (-7) (by decide)⟩⟩

/-- Counterexample to claim C9: for the drop `[fileX (image/png, 500
bytes), folderY { fileZ (image/png, 2000000 bytes) }]` with `maxSize =
1000000` and category `"image"`, the queue is FIFO, so the traversal
emits the file-X record BEFORE the folder-Y record; the claimed order
`[Folder "Y", File "X"]` does not occur (fileZ is excluded by the size
filter in both readings). -/
theorem c9_scenario_order_counterexample :
    getAllFileEntries 1000000 "image"
        [some (.file "/X" "X" "X" "image/png" 500 (.ok "dX")),
         some (.dir "/Y" "Y"
           [[ FsEntry.file "/Y/Z" "Z" "Z" "image/png" 2000000 (.ok "dZ") ]])] =
      .ok [{ path := "/", type := "file", name := "X"
           , mimeType := "image/png", data := "dX" },
           { path := "/", type := "folder", name := "Y"
           , mimeType := "folder/folder", data := "" }]
    ∧ (Except.ok [{ path := "/", type := "file", name := "X"
                  , mimeType := "image/png", data := "dX" },
                  { path := "/", type := "folder", name := "Y"
                  , mimeType := "folder/folder", data := "" }] :
        Except String (List fileType)) ≠
      .ok [{ path := "/", type := "folder", name := "Y"
           , mimeType := "folder/folder", data := "" },
           { path := "/", type := "file", name := "X"
           , mimeType := "image/png", data := "dX" }] := by
  refine ⟨?_, by decide⟩
  simp [getAllFileEntries, readAllDirectoryEntries, checksPass, splitHead,
        replaceFirst, removeFirst]

/-- Claim C9 as amended: the same drop and configuration produce
exactly `[File entry "X" (encoded), Folder entry "Y"]` in that order
(file X precedes folder Y in the drop list, so its record is emitted
first), with fileZ excluded by the size filter. -/
theorem c9_scenario_output_order :
    getAllFileEntries 1000000 "image"
        [some (.file "/X" "X" "X" "image/png" 500 (.ok "dX")),
         some (.dir "/Y" "Y"
           [[ FsEntry.file "/Y/Z" "Z" "Z" "image/png" 2000000 (.ok "dZ") ]])] =
      .ok [{ path := "/", type := "file", name := "X"
           , mimeType := "image/png", data := "dX" },
           { path := "/", type := "folder", name := "Y"
           , mimeType := "folder/folder", data := "" }] := by
  simp [getAllFileEntries, readAllDirectoryEntries, checksPass, splitHead,
        replaceFirst, removeFirst]

/-- Claim C10: on the native-dialog path, when `files.item(i)` returns
`null` at an index reached by the loop (all earlier items present with
succeeding reads), the per-index promise never settles, so the
operation neither completes nor errors (`.hang`): `onUploadEnd` is
never invoked, whatever files follow that index. -/
theorem c10_null_item_hangs_selection
    (ms : Int) (ftp : String) (pre suf : List (Option SelFile))
    (h : ∀ x ∈ pre, selReadOk x = true) :
    onChange ms ftp (some (pre ++ none :: suf)) = .hang := by
  have main : ∀ (pre : List (Option SelFile)),
      (∀ x ∈ pre, selReadOk x = true) →
      selLoop ms ftp (pre ++ none :: suf) = .hang := by
    intro pre
    induction pre with
    | nil =>
      intro _
      simp [selLoop]
    | cons x xs ih =>
      intro hx
      have hxs : ∀ y ∈ xs, selReadOk y = true :=
        fun y hy => hx y (by simp [hy])
      match x with
      | none =>
        have hcontra := hx none (by simp)
        simp [selReadOk] at hcontra
      | some ⟨n, t, sz, .error e⟩ =>
        have hcontra := hx (some ⟨n, t, sz, .error e⟩) (by simp)
        simp [selReadOk] at hcontra
      | some ⟨n, t, sz, .ok d⟩ =>
        rw [List.cons_append]
        simp [selLoop, ih hxs]
  rw [onChange, if_pos (by simp), main pre h]

/-- Witness for C10: one present, successfully read PDF before the
`null` item, one file after it. -/
theorem c10_null_item_hangs_selection_witness :
    (∀ x ∈ [some (⟨"p1.pdf", "application/pdf", 100, .ok "d1"⟩ : SelFile)],
      selReadOk x = true) ∧
    onChange 10000000 "pdf"
        (some ([some ⟨"p1.pdf", "application/pdf", 100, .ok "d1"⟩] ++
          none :: [some ⟨"p2.pdf", "application/pdf", 200, .ok "d2"⟩])) =
      .hang :=
  ⟨by decide,
   c10_null_item_hangs_selection 10000000 "pdf"
     [some ⟨"p1.pdf", "application/pdf", 100, .ok "d1"⟩]
     [some ⟨"p2.pdf", "application/pdf", 200, .ok "d2"⟩] (by decide)⟩
